import Mathlib

/-!
Verification of `fairseq/criterions/similarity.py` (the `SimilarityCriterion`
loss plugin).  Python floats and ints are modelled as rationals (`ℚ`) and
naturals (`ℕ`); tensors as lists.  The host framework pieces that the file
merely calls (the model object, `torch.cosine_similarity`, the config value
`configs.cosine_embedding_loss_margin`) are parameters of the embedding, since
their code is not part of this repository.
-/

namespace Similarity

/-- A row of a 2-D logit tensor: one feature vector per example. -/
abbrev Vec := List ℚ

/-- The sample dictionary fields that `forward` reads: the two keyword-argument
packs `net_input0` / `net_input1` (opaque to the criterion, type `ν`) and the
token counts `ntokens0` / `ntokens1`. -/
structure Sample (ν : Type) where
  net_input0 : ν
  net_input1 : ν
  ntokens0 : ℚ
  ntokens1 : ℚ

/-- The model object supplied by the host framework, as the criterion sees it:
whether `hasattr(model, 'classification_heads')` holds, the names present in
`model.classification_heads`, the call `model(**net_input,
classification_head_name=h)` (first component of the returned pair; the extra
component is discarded by the criterion), and `model.get_targets(sample,
net_output)`, returning a target tensor of arbitrary 2-D shape. -/
structure Model (ν : Type) where
  hasClassificationHeads : Bool
  classificationHeads : List String
  run : ν → String → List Vec
  getTargets : Sample ν → List (List Vec) → List (List ℚ)

/-- The logging dictionary built by `forward`.  `forward` always populates
every key, so the dictionary is modelled as a structure. -/
structure LoggingOutput where
  loss : ℚ
  ntokens : ℚ
  nsentences : ℕ
  sample_size : ℕ
  ncorrect : ℕ
  ncorrect_total : ℕ
  ncorrect_pred : ℕ
  ncorrect_actual : ℕ
  preds : List ℚ
  targets : List ℚ
deriving DecidableEq

/-- How a call to `forward` can abort: the explicit `assert` at its top, or a
tensor shape mismatch raised by the underlying numerical library (torch
requires the two logit tensors and the target vector to agree in batch
dimension). -/
inductive CriterionError
  | assertionFailed
  | shapeMismatch
deriving DecidableEq

/-- Modelled from the spec (the library function
`torch.nn.functional.cosine_embedding_loss` is not part of this repository):
per example, target `1` contributes `1 - cos`, target `-1` contributes
`max 0 (cos - margin)`, any other target contributes nothing; reduction
`sum` adds the per-example terms.  The cosine similarity itself is the
parameter `cosSim`. -/
def F_cosine_embedding_loss (cosSim : Vec → Vec → ℚ) (margin : ℚ)
    (x1 x2 : List Vec) (target : List ℚ) : ℚ :=
  (((x1.zip x2).zip target).map (fun p =>
    (if p.2 = 1 then 1 - cosSim p.1.1 p.1.2 else 0)
      + (if p.2 = -1 then max 0 (cosSim p.1.1 p.1.2 - margin) else 0))).sum

/-- The standard cosine-embedding-loss formula exactly as the spec words it:
for each example the loss is `1 - cos` when the target is `1`,
`max 0 (cos - margin)` when the target is `-1`, and `0` otherwise, summed
over the batch (sum reduction). -/
def standardCosineEmbeddingLoss (cosSim : Vec → Vec → ℚ) (margin : ℚ)
    (x1 x2 : List Vec) (target : List ℚ) : ℚ :=
  (((x1.zip x2).zip target).map (fun p =>
    if p.2 = 1 then 1 - cosSim p.1.1 p.1.2
    else if p.2 = -1 then max 0 (cosSim p.1.1 p.1.2 - margin)
    else 0)).sum

/-- The line `preds = torch.cosine_similarity(logits0, logits1, dim=1)`: the
per-example cosine similarity of the two logit rows. -/
def predsOf (cosSim : Vec → Vec → ℚ) (logits0 logits1 : List Vec) : List ℚ :=
  (logits0.zip logits1).map (fun p => cosSim p.1 p.2)

/-- The logging dictionary `forward` builds (lines 67-84 of the source): the
loss, the token and sentence counts, the four threshold counts against the
margin, and the raw `preds` / `targets` lists. -/
def mkLoggingOutput (cosSim : Vec → Vec → ℚ) (margin : ℚ)
    (logits0 logits1 : List Vec) (targets : List ℚ) (ntokens : ℚ) :
    LoggingOutput :=
  let preds := predsOf cosSim logits0 logits1
  { loss := F_cosine_embedding_loss cosSim margin logits0 logits1 targets
    ntokens := ntokens
    nsentences := targets.length
    sample_size := targets.length
    ncorrect := (preds.zip targets).countP (fun p =>
      (decide (margin < p.1) == decide (margin < p.2)) && decide (margin < p.2))
    ncorrect_total := (preds.zip targets).countP (fun p =>
      decide (margin < p.1) == decide (margin < p.2))
    ncorrect_pred := preds.countP (fun x => decide (margin < x))
    ncorrect_actual := targets.countP (fun x => decide (margin < x))
    preds := preds
    targets := targets }

/-- `SimilarityCriterion.forward`.  Parameters: `cosSim` models
`torch.cosine_similarity` along dim 1; `margin` models
`configs.cosine_embedding_loss_margin`; `classification_head_name` is the
criterion field set from `--classification-head-name`.  Returns the triple
`(loss, sample_size, logging_output)`, or the error the call aborts with. -/
def forward {ν : Type} (cosSim : Vec → Vec → ℚ) (margin : ℚ) (model : Model ν)
    (sample : Sample ν) (classification_head_name : String) :
    Except CriterionError (ℚ × ℕ × LoggingOutput) :=
  if model.hasClassificationHeads = true ∧
      classification_head_name ∈ model.classificationHeads then
    let logits0 := model.run sample.net_input0 classification_head_name
    let logits1 := model.run sample.net_input1 classification_head_name
    let targets := (model.getTargets sample [logits0]).flatten
    if logits0.length = logits1.length ∧ logits0.length = targets.length then
      .ok (F_cosine_embedding_loss cosSim margin logits0 logits1 targets,
        targets.length,
        mkLoggingOutput cosSim margin logits0 logits1 targets
          (sample.ntokens0 + sample.ntokens1))
    else .error .shapeMismatch
  else .error .assertionFailed

/-- Python builtin `sum` over rationals: a left fold starting from `0`. -/
def pySum (l : List ℚ) : ℚ := l.foldl (· + ·) 0

/-- Python builtin `sum` over naturals: a left fold starting from `0`. -/
def pySumNat (l : List ℕ) : ℕ := l.foldl (· + ·) 0

/-- The line `loss_sum = sum(log.get('loss', 0) for log in logging_outputs)`. -/
def lossSum (logging_outputs : List LoggingOutput) : ℚ :=
  pySum (logging_outputs.map (·.loss))

/-- The line `ntokens = sum(log.get('ntokens', 0) for log in logging_outputs)`. -/
def ntokensSum (logging_outputs : List LoggingOutput) : ℚ :=
  pySum (logging_outputs.map (·.ntokens))

/-- The line `nsentences = sum(log.get('nsentences', 0) for log in
logging_outputs)`. -/
def nsentencesSum (logging_outputs : List LoggingOutput) : ℕ :=
  pySumNat (logging_outputs.map (·.nsentences))

/-- The line `sample_size = sum(log.get('sample_size', 0) for log in
logging_outputs)`. -/
def sampleSizeSum (logging_outputs : List LoggingOutput) : ℕ :=
  pySumNat (logging_outputs.map (·.sample_size))

/-- The line `preds = list(itertools.chain.from_iterable([log.get('preds', 0)
for log in logging_outputs]))`: the per-worker lists concatenated in order. -/
def pooledPreds (logging_outputs : List LoggingOutput) : List ℚ :=
  (logging_outputs.map (·.preds)).flatten

/-- The line `targets = list(itertools.chain.from_iterable([log.get('targets',
0) for log in logging_outputs]))`. -/
def pooledTargets (logging_outputs : List LoggingOutput) : List ℚ :=
  (logging_outputs.map (·.targets)).flatten

/-- The IEEE-754 double value of `math.log(2)` (a Python float is an exact
dyadic rational). -/
def mathLog2 : ℚ := 6243314768165359 / 9007199254740992

/-- Modelled from the spec (the library function
`sklearn.metrics.roc_auc_score` is not part of this repository): the area
under the ROC curve of binary scores, in its equivalent Mann-Whitney form.
The positive class is the larger of the two label values; the AUC is the
fraction of (positive, negative) pairs ranked correctly by the score, ties
counting one half. -/
def rocAucScore (y_true y_score : List ℚ) : ℚ :=
  let pairs := y_true.zip y_score
  let posLabel := y_true.foldl max (y_true.headD 0)
  let pos := (pairs.filter (fun p => p.1 = posLabel)).map (·.2)
  let neg := (pairs.filter (fun p => ¬ p.1 = posLabel)).map (·.2)
  let wins := (pos.map (fun s =>
    ((neg.filter (fun t => t < s)).length : ℚ)
      + ((neg.filter (fun t => t = s)).length : ℚ) / 2)).sum
  wins / ((pos.length : ℚ) * (neg.length : ℚ))

/-- How `reduce_metrics` can abort: a Python `ZeroDivisionError` from one of
its two unguarded divisions. -/
inductive ReduceError
  | zeroDivision
deriving DecidableEq

/-- `SimilarityCriterion.reduce_metrics`.  The calls to `metrics.log_scalar`
(an external, stateful fairseq module) are modelled as the returned
association list of `(name, value)` pairs in call order; the `weight` and
`round` arguments of `log_scalar` only affect display and are not modelled.
The key-presence test on `logging_outputs[0]` is always true here because
`forward` populates every key, so it reduces to `logging_outputs` being
non-empty.  A division whose divisor is zero raises `ZeroDivisionError`. -/
def reduce_metrics (logging_outputs : List LoggingOutput) :
    Except ReduceError (List (String × ℚ)) :=
  let loss_sum := lossSum logging_outputs
  let ntokens := ntokensSum logging_outputs
  let sample_size := sampleSizeSum logging_outputs
  if sample_size = 0 then .error .zeroDivision
  else
    let logs := [("loss", loss_sum / (sample_size : ℚ) / mathLog2)]
    if (sample_size : ℚ) ≠ ntokens ∧ ntokens = 0 then .error .zeroDivision
    else
      let logs := if (sample_size : ℚ) ≠ ntokens then
        logs ++ [("nll_loss", loss_sum / ntokens / mathLog2)]
      else logs
      if logging_outputs.length > 0 then
        let preds := pooledPreds logging_outputs
        let targets := pooledTargets logging_outputs
        let auc := if targets.dedup.length ≠ 2 then 1
          else rocAucScore targets preds
        .ok (logs ++ [("AUC", auc)])
      else .ok logs

/-- `SimilarityCriterion.logging_outputs_can_be_summed`: the criterion
declares that its logging outputs cannot be summed across workers before
`reduce_metrics` is called. -/
def logging_outputs_can_be_summed : Bool := false

/-! ### Concrete fixtures, used to evaluate the theorems on explicit inputs -/

/-- A concrete stand-in for `torch.cosine_similarity`: the constant 1/2. -/
def wCos : Vec → Vec → ℚ := fun _ _ => 1/2

/-- A concrete model exposing the `similarity` classification head, two logit
rows per input, and a target tensor `[[1, -1]]`. -/
def wModel : Model Unit :=
  { hasClassificationHeads := true
    classificationHeads := ["similarity"]
    run := fun _ _ => [[1, 0], [0, 1]]
    getTargets := fun _ _ => [[1, -1]] }

/-- Like `wModel` but with the degenerate target tensor `[[1, 1]]` (a single
distinct target value). -/
def wModel2 : Model Unit :=
  { hasClassificationHeads := true
    classificationHeads := ["similarity"]
    run := fun _ _ => [[1, 0], [0, 1]]
    getTargets := fun _ _ => [[1, 1]] }

/-- A concrete sample with 3 + 4 tokens. -/
def wSample : Sample Unit :=
  { net_input0 := (), net_input1 := (), ntokens0 := 3, ntokens1 := 4 }

/-- The logging output `forward wCos 0 wModel wSample "similarity"`
produces. -/
def wLog : LoggingOutput :=
  ⟨1, 7, 2, 2, 1, 1, 2, 1, [1/2, 1/2], [1, -1]⟩

/-- The logging output `forward wCos 0 wModel2 wSample "similarity"`
produces. -/
def wLog2 : LoggingOutput :=
  ⟨1, 7, 2, 2, 2, 2, 2, 2, [1/2, 1/2], [1, 1]⟩

/-- The metric log `reduce_metrics [wLog]` produces. -/
def wLogs3 : List (String × ℚ) :=
  [("loss", 1/2/mathLog2), ("nll_loss", 1/7/mathLog2), ("AUC", 1/2)]

/-- The metric log `reduce_metrics [wLog2]` produces: the degenerate target
list makes the logged AUC exactly 1. -/
def wLogs9 : List (String × ℚ) :=
  [("loss", 1/2/mathLog2), ("nll_loss", 1/7/mathLog2), ("AUC", 1)]

/-! ### Helper lemmas -/

theorem foldl_add_eq_add_sum (a : ℚ) (l : List ℚ) :
    l.foldl (· + ·) a = a + l.sum := by
  induction l generalizing a with
  | nil => simp
  | cons x xs ih => simp [List.foldl_cons, ih, List.sum_cons, add_assoc]

theorem foldl_add_eq_add_sum_nat (a : ℕ) (l : List ℕ) :
    l.foldl (· + ·) a = a + l.sum := by
  induction l generalizing a with
  | nil => simp
  | cons x xs ih => simp [List.foldl_cons, ih, List.sum_cons, Nat.add_assoc]

theorem pySum_eq_sum (l : List ℚ) : pySum l = l.sum := by
  simp [pySum, foldl_add_eq_add_sum]

theorem pySumNat_eq_sum (l : List ℕ) : pySumNat l = l.sum := by
  simp [pySumNat, foldl_add_eq_add_sum_nat]

/-- The torch cosine-embedding-loss (as `forward` computes it) agrees with
the standard formula as the spec words it, for any cosine-similarity
function, margin, logit tensors and target vector. -/
theorem F_cosine_embedding_loss_eq_standard (cosSim : Vec → Vec → ℚ)
    (margin : ℚ) (x1 x2 : List Vec) (t : List ℚ) :
    F_cosine_embedding_loss cosSim margin x1 x2 t =
      standardCosineEmbeddingLoss cosSim margin x1 x2 t := by
  unfold F_cosine_embedding_loss standardCosineEmbeddingLoss
  congr 1
  apply List.map_congr_left
  intro p _
  by_cases h1 : p.2 = 1
  · rw [h1]; norm_num
  · by_cases h2 : p.2 = -1
    · rw [h2]; norm_num
    · simp [h1, h2]

/-- Inversion of a successful call to `forward`: the assertion and the shape
check both passed, and the three returned components are exactly the loss,
the flattened-target length, and the logging dictionary built from the two
logit tensors. -/
theorem forward_ok_elim {ν : Type} {cosSim : Vec → Vec → ℚ} {margin : ℚ}
    {model : Model ν} {sample : Sample ν} {head : String}
    {loss : ℚ} {n : ℕ} {lo : LoggingOutput}
    (h : forward cosSim margin model sample head = .ok (loss, n, lo)) :
    (model.hasClassificationHeads = true ∧ head ∈ model.classificationHeads) ∧
    ((model.run sample.net_input0 head).length =
        (model.run sample.net_input1 head).length ∧
      (model.run sample.net_input0 head).length =
        ((model.getTargets sample [model.run sample.net_input0 head]).flatten).length) ∧
    loss = F_cosine_embedding_loss cosSim margin
        (model.run sample.net_input0 head) (model.run sample.net_input1 head)
        ((model.getTargets sample [model.run sample.net_input0 head]).flatten) ∧
    n = ((model.getTargets sample [model.run sample.net_input0 head]).flatten).length ∧
    lo = mkLoggingOutput cosSim margin
        (model.run sample.net_input0 head) (model.run sample.net_input1 head)
        ((model.getTargets sample [model.run sample.net_input0 head]).flatten)
        (sample.ntokens0 + sample.ntokens1) := by
  simp only [forward] at h
  split at h
  · split at h
    · rename_i hassert hshape
      have h' := Except.ok.inj h
      rw [Prod.ext_iff, Prod.ext_iff] at h'
      obtain ⟨h1, h2, h3⟩ := h'
      exact ⟨hassert, hshape, h1.symm, h2.symm, h3.symm⟩
    · simp at h
  · simp at h

/-- Counting over a zipped list by a predicate that only constrains the first
component is bounded by counting over the first list. -/
theorem countP_zip_le_left (f : ℚ × ℚ → Bool) (g : ℚ → Bool)
    (hfg : ∀ p, f p = true → g p.1 = true) (xs ys : List ℚ) :
    (xs.zip ys).countP f ≤ xs.countP g := by
  induction xs generalizing ys with
  | nil => simp
  | cons x xt ih =>
    cases ys with
    | nil => simp
    | cons y yt =>
      simp only [List.zip_cons_cons, List.countP_cons]
      by_cases hf : f (x, y) = true
      · have hg := hfg (x, y) hf
        simp only [hf, hg, if_true]
        exact Nat.add_le_add (ih yt) (Nat.le_refl 1)
      · simp only [hf, if_false]
        exact Nat.le_trans (Nat.add_le_add (ih yt) (Nat.zero_le _))
          (Nat.add_le_add (Nat.le_refl _) (Nat.zero_le _))

/-- Counting over a zipped list by a predicate that only constrains the
second component is bounded by counting over the second list. -/
theorem countP_zip_le_right (f : ℚ × ℚ → Bool) (g : ℚ → Bool)
    (hfg : ∀ p, f p = true → g p.2 = true) (xs ys : List ℚ) :
    (xs.zip ys).countP f ≤ ys.countP g := by
  induction xs generalizing ys with
  | nil => simp
  | cons x xt ih =>
    cases ys with
    | nil => simp
    | cons y yt =>
      simp only [List.zip_cons_cons, List.countP_cons]
      by_cases hf : f (x, y) = true
      · have hg := hfg (x, y) hf
        simp only [hf, hg, if_true]
        exact Nat.add_le_add (ih yt) (Nat.le_refl 1)
      · simp only [hf, if_false]
        exact Nat.le_trans (Nat.add_le_add (ih yt) (Nat.zero_le _))
          (Nat.add_le_add (Nat.le_refl _) (Nat.zero_le _))

/-- Inversion of a successful call to `reduce_metrics`: the summed sample
size is nonzero, the `nll_loss` division did not hit a zero divisor, the
input list is non-empty, and the returned log is the loss entry (with the
conditional `nll_loss` entry) followed by the `AUC` entry. -/
theorem reduce_metrics_ok_elim {ls : List LoggingOutput}
    {logs : List (String × ℚ)} (h : reduce_metrics ls = .ok logs) :
    sampleSizeSum ls ≠ 0 ∧ ls ≠ [] ∧
    logs = (if (sampleSizeSum ls : ℚ) ≠ ntokensSum ls then
        [("loss", lossSum ls / (sampleSizeSum ls : ℚ) / mathLog2),
          ("nll_loss", lossSum ls / ntokensSum ls / mathLog2)]
      else [("loss", lossSum ls / (sampleSizeSum ls : ℚ) / mathLog2)]) ++
      [("AUC", if (pooledTargets ls).dedup.length ≠ 2 then 1
        else rocAucScore (pooledTargets ls) (pooledPreds ls))] := by
  have hne : ls ≠ [] := by
    intro hnil
    rw [hnil] at h
    simp [reduce_metrics, sampleSizeSum, pySumNat] at h
  simp only [reduce_metrics] at h
  split at h
  · simp at h
  · rename_i hsz
    split at h
    · simp at h
    · rename_i hnll
      have hlen : ls.length > 0 := List.length_pos.mpr hne
      rw [if_pos hlen] at h
      have h' := (Except.ok.inj h).symm
      split at h'
      · rename_i hnt
        rw [if_pos hnt]
        exact ⟨hsz, hne, h'⟩
      · rename_i hnt
        rw [if_neg hnt]
        exact ⟨hsz, hne, h'⟩

/-! ### The claims -/

/-- C2: a call to `forward` aborts with the assertion failure exactly when
the supplied model lacks a `classification_heads` attribute or that attribute
does not contain the criterion's classification head name; the assertion is
the only failure check the criterion performs itself (the other abort,
`shapeMismatch`, is raised by the underlying tensor library, not by the
criterion). -/
theorem forward_assertion_failure_iff {ν : Type} (cosSim : Vec → Vec → ℚ)
    (margin : ℚ) (model : Model ν) (sample : Sample ν) (head : String) :
    forward cosSim margin model sample head = .error .assertionFailed ↔
      ¬ (model.hasClassificationHeads = true ∧
        head ∈ model.classificationHeads) := by
  simp only [forward]
  split
  · rename_i hassert
    constructor
    · intro hcontra
      split at hcontra <;> simp at hcontra
    · intro hcon
      exact absurd hassert hcon
  · rename_i hassert
    simp [hassert]

/-- C4: `reduce_metrics` merges per-worker logging outputs by plain
summation and concatenation: each of the four scalar aggregates is additive
over worker lists and is the identity on a single worker, and the pooled
`preds` and `targets` are the in-order concatenations of the per-worker
lists. -/
theorem reduce_metrics_merges_by_sum_and_concat :
    (∀ ls : List LoggingOutput,
      lossSum ls = (ls.map (·.loss)).sum ∧
      ntokensSum ls = (ls.map (·.ntokens)).sum ∧
      nsentencesSum ls = (ls.map (·.nsentences)).sum ∧
      sampleSizeSum ls = (ls.map (·.sample_size)).sum ∧
      pooledPreds ls = (ls.map (·.preds)).flatten ∧
      pooledTargets ls = (ls.map (·.targets)).flatten) ∧
    (∀ l1 l2 : List LoggingOutput,
      lossSum (l1 ++ l2) = lossSum l1 + lossSum l2 ∧
      ntokensSum (l1 ++ l2) = ntokensSum l1 + ntokensSum l2 ∧
      nsentencesSum (l1 ++ l2) = nsentencesSum l1 + nsentencesSum l2 ∧
      sampleSizeSum (l1 ++ l2) = sampleSizeSum l1 + sampleSizeSum l2 ∧
      pooledPreds (l1 ++ l2) = pooledPreds l1 ++ pooledPreds l2 ∧
      pooledTargets (l1 ++ l2) = pooledTargets l1 ++ pooledTargets l2) ∧
    (∀ lo : LoggingOutput,
      lossSum [lo] = lo.loss ∧ ntokensSum [lo] = lo.ntokens ∧
      nsentencesSum [lo] = lo.nsentences ∧
      sampleSizeSum [lo] = lo.sample_size ∧
      pooledPreds [lo] = lo.preds ∧ pooledTargets [lo] = lo.targets) := by
  refine ⟨?_, ?_, ?_⟩
  · intro ls
    refine ⟨?_, ?_, ?_, ?_, ?_, ?_⟩ <;>
      simp [lossSum, ntokensSum, nsentencesSum, sampleSizeSum, pooledPreds,
        pooledTargets, pySum_eq_sum, pySumNat_eq_sum]
  · intro l1 l2
    refine ⟨?_, ?_, ?_, ?_, ?_, ?_⟩ <;>
      simp [lossSum, ntokensSum, nsentencesSum, sampleSizeSum, pooledPreds,
        pooledTargets, pySum_eq_sum, pySumNat_eq_sum]
  · intro lo
    refine ⟨?_, ?_, ?_, ?_, ?_, ?_⟩ <;>
      simp [lossSum, ntokensSum, nsentencesSum, sampleSizeSum, pooledPreds,
        pooledTargets, pySum_eq_sum, pySumNat_eq_sum]

/-- C6 counterexample: the claim that the logging outputs of `forward` can
be summed across workers before `reduce_metrics` is called is what the
method `logging_outputs_can_be_summed` answers, and the code answers no. -/
theorem logging_outputs_summable_refuted :
    ¬ logging_outputs_can_be_summed = true := by
  simp [logging_outputs_can_be_summed]

/-- C6 (amended): the criterion declares that its logging outputs cannot be
summed across workers prior to `reduce_metrics`: the method
`logging_outputs_can_be_summed` returns `False` (consistently, the logging
output carries the list-valued entries `preds` and `targets`, which
`reduce_metrics` pools by concatenation rather than by summation). -/
theorem logging_outputs_not_summable :
    logging_outputs_can_be_summed = false := rfl

/-- C7: both methods are deterministic: running `forward` twice on the same
model, sample and configuration gives equal results, and running
`reduce_metrics` twice on the same list of logging outputs gives equal
results (both are pure functions of their arguments in this embedding, as
the source methods read no mutable state). -/
theorem criterion_deterministic {ν : Type} (cosSim : Vec → Vec → ℚ)
    (margin : ℚ) (model : Model ν) (sample : Sample ν) (head : String)
    (ls : List LoggingOutput) :
    forward cosSim margin model sample head =
      forward cosSim margin model sample head ∧
    reduce_metrics ls = reduce_metrics ls :=
  ⟨rfl, rfl⟩

/-- C8: the `loss` computation of `reduce_metrics` divides the summed loss
by the summed `sample_size` with no zero guard: whenever the `sample_size`
entries sum to zero (in particular on the empty list) the division has a
zero divisor and the call aborts with `ZeroDivisionError`, and conversely a
successful call implies the summed `sample_size` was nonzero. -/
theorem reduce_metrics_zero_divisor (ls : List LoggingOutput) :
    (sampleSizeSum ls = 0 → reduce_metrics ls = .error .zeroDivision) ∧
    (∀ logs, reduce_metrics ls = .ok logs → sampleSizeSum ls ≠ 0) := by
  constructor
  · intro hz
    simp [reduce_metrics, hz]
  · intro logs hok
    exact (reduce_metrics_ok_elim hok).1

/-- C1: the loss returned by a successful call to `forward` is exactly the
standard cosine-embedding-loss formula applied to the two logit tensors (the
model run on `net_input0` and on `net_input1` with the configured head) and
the flattened target vector, with the configured margin and sum reduction. -/
theorem forward_loss_is_standard_cosine_embedding_loss {ν : Type}
    (cosSim : Vec → Vec → ℚ) (margin : ℚ) (model : Model ν)
    (sample : Sample ν) (head : String) (loss : ℚ) (n : ℕ)
    (lo : LoggingOutput) (h : forward cosSim margin model sample head =
      .ok (loss, n, lo)) :
    loss = standardCosineEmbeddingLoss cosSim margin
      (model.run sample.net_input0 head) (model.run sample.net_input1 head)
      ((model.getTargets sample [model.run sample.net_input0 head]).flatten) := by
  rw [(forward_ok_elim h).2.2.1, F_cosine_embedding_loss_eq_standard]

/-- C5: a successful call to `forward` returns a triple whose sample size is
the element count of the flattened target tensor, and whose logging
dictionary records that same number under both `nsentences` and
`sample_size`. -/
theorem forward_sample_size_is_target_numel {ν : Type}
    (cosSim : Vec → Vec → ℚ) (margin : ℚ) (model : Model ν)
    (sample : Sample ν) (head : String) (loss : ℚ) (n : ℕ)
    (lo : LoggingOutput) (h : forward cosSim margin model sample head =
      .ok (loss, n, lo)) :
    n = ((model.getTargets sample [model.run sample.net_input0 head]).flatten).length ∧
    lo.nsentences = n ∧ lo.sample_size = n := by
  obtain ⟨-, -, -, hn, hlo⟩ := forward_ok_elim h
  refine ⟨hn, ?_, ?_⟩ <;> rw [hlo] <;> simp [mkLoggingOutput, hn]

/-- C10: the logging dictionary of a successful `forward` call satisfies the
counting invariants: `ncorrect` is between `0` and the minimum of
`ncorrect_pred` and `ncorrect_actual`, `ncorrect_total` is at most
`nsentences`, and the `preds` and `targets` lists both have length
`nsentences`. -/
theorem forward_logging_output_invariants {ν : Type}
    (cosSim : Vec → Vec → ℚ) (margin : ℚ) (model : Model ν)
    (sample : Sample ν) (head : String) (loss : ℚ) (n : ℕ)
    (lo : LoggingOutput) (h : forward cosSim margin model sample head =
      .ok (loss, n, lo)) :
    0 ≤ lo.ncorrect ∧
    lo.ncorrect ≤ min lo.ncorrect_pred lo.ncorrect_actual ∧
    lo.ncorrect_total ≤ lo.nsentences ∧
    lo.preds.length = lo.nsentences ∧ lo.targets.length = lo.nsentences := by
  obtain ⟨-, hshape, -, -, hlo⟩ := forward_ok_elim h
  obtain ⟨hlen01, hlen0t⟩ := hshape
  subst hlo
  simp only [mkLoggingOutput]
  have hpl : (predsOf cosSim (model.run sample.net_input0 head)
      (model.run sample.net_input1 head)).length =
      ((model.getTargets sample [model.run sample.net_input0 head]).flatten).length := by
    simp only [predsOf, List.length_map, List.length_zip]
    omega
  refine ⟨Nat.zero_le _, Nat.le_min.mpr ⟨?_, ?_⟩, ?_, hpl, trivial⟩
  · apply countP_zip_le_left
    intro p hp
    simp only [Bool.and_eq_true, beq_iff_eq] at hp
    exact hp.1.trans hp.2
  · apply countP_zip_le_right
    intro p hp
    simp only [Bool.and_eq_true, beq_iff_eq] at hp
    exact hp.2
  · exact Nat.le_trans (List.countP_le_length _)
      (by rw [List.length_zip]; omega)

/-- C3 (amended): whenever `reduce_metrics` succeeds and the pooled target
list contains exactly two distinct values, the logged `AUC` metric is the
ROC area-under-curve of the pooled targets and pooled predictions. -/
theorem reduce_metrics_auc_is_roc_auc (ls : List LoggingOutput)
    (logs : List (String × ℚ)) (hok : reduce_metrics ls = .ok logs)
    (h2 : (pooledTargets ls).dedup.length = 2) :
    logs.lookup "AUC" =
      some (rocAucScore (pooledTargets ls) (pooledPreds ls)) := by
  obtain ⟨-, -, hlogs⟩ := reduce_metrics_ok_elim hok
  subst hlogs
  split <;> simp [List.lookup, h2]

/-- C9: whenever `reduce_metrics` succeeds and the pooled target list does
not contain exactly two distinct values, the logged `AUC` metric is exactly
`1.0` regardless of the predictions (`roc_auc_score` is bypassed). -/
theorem reduce_metrics_auc_degenerate_one (ls : List LoggingOutput)
    (logs : List (String × ℚ)) (hok : reduce_metrics ls = .ok logs)
    (h2 : (pooledTargets ls).dedup.length ≠ 2) :
    logs.lookup "AUC" = some 1 := by
  obtain ⟨-, -, hlogs⟩ := reduce_metrics_ok_elim hok
  subst hlogs
  split <;> simp [List.lookup, h2]

/-! ### Evaluation of the fixtures -/

/-- Evaluating `forward` on the `wModel` fixture. -/
theorem forward_wModel_eval :
    forward wCos 0 wModel wSample "similarity" = .ok (1, 2, wLog) := by
  norm_num [forward, wModel, wSample, wLog, wCos, F_cosine_embedding_loss,
    mkLoggingOutput, predsOf, List.countP, List.countP.go]

/-- Evaluating `forward` on the `wModel2` fixture. -/
theorem forward_wModel2_eval :
    forward wCos 0 wModel2 wSample "similarity" = .ok (1, 2, wLog2) := by
  norm_num [forward, wModel2, wSample, wLog2, wCos, F_cosine_embedding_loss,
    mkLoggingOutput, predsOf, List.countP, List.countP.go]

/-- Evaluating `reduce_metrics` on the single-worker list `[wLog]`. -/
theorem reduce_metrics_wLog_eval : reduce_metrics [wLog] = .ok wLogs3 := by
  norm_num [reduce_metrics, wLog, wLogs3, lossSum, ntokensSum, sampleSizeSum,
    pySum, pySumNat, pooledPreds, pooledTargets, List.dedup, rocAucScore,
    List.filter]

/-- Evaluating `reduce_metrics` on the single-worker list `[wLog2]`. -/
theorem reduce_metrics_wLog2_eval : reduce_metrics [wLog2] = .ok wLogs9 := by
  norm_num [reduce_metrics, wLog2, wLogs9, lossSum, ntokensSum, sampleSizeSum,
    pySum, pySumNat, pooledPreds, pooledTargets, List.dedup]

/-- C1 witness: the theorem evaluated on the `wModel` fixture. -/
theorem forward_loss_is_standard_cosine_embedding_loss_witness :
    (1 : ℚ) = standardCosineEmbeddingLoss wCos 0
      (wModel.run wSample.net_input0 "similarity")
      (wModel.run wSample.net_input1 "similarity")
      ((wModel.getTargets wSample
        [wModel.run wSample.net_input0 "similarity"]).flatten) :=
  forward_loss_is_standard_cosine_embedding_loss wCos 0 wModel wSample
    "similarity" 1 2 wLog forward_wModel_eval

/-- C5 witness: the theorem evaluated on the `wModel` fixture. -/
theorem forward_sample_size_is_target_numel_witness :
    2 = ((wModel.getTargets wSample
        [wModel.run wSample.net_input0 "similarity"]).flatten).length ∧
    wLog.nsentences = 2 ∧ wLog.sample_size = 2 :=
  forward_sample_size_is_target_numel wCos 0 wModel wSample
    "similarity" 1 2 wLog forward_wModel_eval

/-- C10 witness: the theorem evaluated on the `wModel` fixture. -/
theorem forward_logging_output_invariants_witness :
    0 ≤ wLog.ncorrect ∧
    wLog.ncorrect ≤ min wLog.ncorrect_pred wLog.ncorrect_actual ∧
    wLog.ncorrect_total ≤ wLog.nsentences ∧
    wLog.preds.length = wLog.nsentences ∧
    wLog.targets.length = wLog.nsentences :=
  forward_logging_output_invariants wCos 0 wModel wSample
    "similarity" 1 2 wLog forward_wModel_eval

/-- C3 witness: the amended theorem evaluated on the single-worker list
`[wLog]`, whose pooled targets `[1, -1]` have exactly two distinct values. -/
theorem reduce_metrics_auc_is_roc_auc_witness :
    wLogs3.lookup "AUC" =
      some (rocAucScore (pooledTargets [wLog]) (pooledPreds [wLog])) :=
  reduce_metrics_auc_is_roc_auc [wLog] wLogs3 reduce_metrics_wLog_eval
    (by norm_num [pooledTargets, wLog, List.dedup])

/-- C9 witness: the theorem evaluated on the single-worker list `[wLog2]`,
whose pooled targets `[1, 1]` have a single distinct value. -/
theorem reduce_metrics_auc_degenerate_one_witness :
    wLogs9.lookup "AUC" = some 1 :=
  reduce_metrics_auc_degenerate_one [wLog2] wLogs9 reduce_metrics_wLog2_eval
    (by norm_num [pooledTargets, wLog2, List.dedup])

/-- C3 counterexample: on the degenerate fixture the criterion logs
`AUC = 1` although the ROC area under curve of the pooled targets and
predictions is not 1 (the pooled targets `[1, 1]` hold a single class, so
`roc_auc_score` is not the logged value there; the claim that the logged
`AUC` always equals `roc_auc_score` of the pooled data fails on this
input, which `forward` produces). -/
theorem auc_logged_one_but_not_roc_auc :
    forward wCos 0 wModel2 wSample "similarity" = .ok (1, 2, wLog2) ∧
    (reduce_metrics [wLog2]).map (fun logs => logs.lookup "AUC") =
      .ok (some 1) ∧
    rocAucScore (pooledTargets [wLog2]) (pooledPreds [wLog2]) ≠ 1 := by
  refine ⟨forward_wModel2_eval, ?_, ?_⟩
  · rw [reduce_metrics_wLog2_eval]
    simp [wLogs9, List.lookup, Except.map]
  · norm_num [rocAucScore, pooledPreds, pooledTargets, wLog2]

end Similarity
